import Mathlib

/-!
Verification of the keypoint-processing core of the exercise-coach component
(`PoseCamera`): the rep-phase state machine, the joint-angle calculator, the
form-statistics accumulator with its timed flush, and the form interpreter.

Numeric modelling: keypoint coordinates, confidence scores and the shoulder-y
stream are modelled as rationals (the JavaScript arithmetic on them is exact
field arithmetic); derived geometric quantities that pass through `Math.acos`
and `Math.sqrt` are modelled as reals. Timestamps (`Date.now()`) are integers
(milliseconds).
-/

namespace PoseCamera

/-- The two values of `state.phase` ("top" / "bottom"). -/
inductive Phase where
  | top
  | bottom
deriving DecidableEq

/-- The state `repStateRef.current` after the lazy seeding of lines 174-177 has run:
`phase`, `topY`, `bottomY`, `repCount`.  The code seeds `topY` and `bottomY`
to the first observed shoulder-y; `repStep_initState` below shows that the
seeding frame itself leaves the freshly seeded state unchanged, so we model
the machine from the seeded state on. -/
structure RepState where
  phase : Phase
  topY : ℚ
  bottomY : ℚ
  repCount : ℕ
deriving DecidableEq

/-- Source constant `downThreshold = 52` (line 170). -/
def downThreshold : ℚ := 52

/-- Source constant `upThreshold = 40` (line 171). -/
def upThreshold : ℚ := 40

/-- Source constant `minimumRange = 70` (line 172). -/
def minimumRange : ℚ := 70

/-- The state right after the first observed shoulder-y `y` seeds
`topY = bottomY = y` (lines 174-177), with `phase: "top", repCount: 0`
(lines 24-27). -/
def initState (y : ℚ) : RepState :=
  ⟨Phase.top, y, y, 0⟩

/-- One frame of the rep-phase update (lines 179-193) on shoulder-y `y`:
in "top", ratchet `topY` down to `min topY y` and drop to "bottom" when
`y - topY > downThreshold`, seeding `bottomY := y`; in "bottom", ratchet
`bottomY` up to `max bottomY y` and, when `bottomY - y > upThreshold` and
`bottomY - topY > minimumRange`, return to "top", reset `topY := y` and
increment `repCount`. -/
def repStep (s : RepState) (y : ℚ) : RepState :=
  match s.phase with
  | Phase.top =>
      let t := min s.topY y
      if y - t > downThreshold then
        ⟨Phase.bottom, t, y, s.repCount⟩
      else
        ⟨Phase.top, t, s.bottomY, s.repCount⟩
  | Phase.bottom =>
      let b := max s.bottomY y
      if b - y > upThreshold ∧ b - s.topY > minimumRange then
        ⟨Phase.top, y, b, s.repCount + 1⟩
      else
        ⟨Phase.bottom, s.topY, b, s.repCount⟩

/-- Running the machine on the shoulder-y stream `y₀ :: ys`: the first
observed value `y₀` seeds the state (lines 174-177) and every frame,
the seeding one included, then goes through the phase update. -/
def runReps (y₀ : ℚ) (ys : List ℚ) : RepState :=
  (y₀ :: ys).foldl repStep (initState y₀)

/-- A 2D point, as consumed by `calculateAngle` (the JavaScript objects
`{x, y}` built from keypoint coordinates). -/
structure Pt where
  x : ℝ
  y : ℝ

/-- Source function `calculateAngle(a, b, c)` (lines 73-82): the included angle at `b`, in
degrees.  Vectors `ab = a - b` and `cb = c - b`, their dot product and
magnitudes (`Math.hypot`), 180 if either magnitude is zero, otherwise the
cosine is clamped to `[-1, 1]` before `Math.acos`, and the result is
converted from radians to degrees. -/
noncomputable def calculateAngle (a b c : Pt) : ℝ :=
  if Real.sqrt ((a.x - b.x) ^ 2 + (a.y - b.y) ^ 2) = 0 ∨
      Real.sqrt ((c.x - b.x) ^ 2 + (c.y - b.y) ^ 2) = 0 then
    180
  else
    Real.arccos (min (max (((a.x - b.x) * (c.x - b.x) + (a.y - b.y) * (c.y - b.y)) /
      (Real.sqrt ((a.x - b.x) ^ 2 + (a.y - b.y) ^ 2) *
        Real.sqrt ((c.x - b.x) ^ 2 + (c.y - b.y) ^ 2))) (-1)) 1) * 180 / Real.pi

/-- One detected keypoint: joint name, position, confidence score. -/
structure Keypoint where
  name : String
  x : ℚ
  y : ℚ
  score : ℚ
deriving DecidableEq

/-- A detected pose: the keypoint list of one skeleton. -/
structure Pose where
  keypoints : List Keypoint
deriving DecidableEq

/-- Coordinates of a keypoint as a real point, for the angle calculator. -/
def Keypoint.toPt (k : Keypoint) : Pt :=
  ⟨(k.x : ℝ), (k.y : ℝ)⟩

def nameLeftShoulder : String := "left_shoulder"

def nameRightShoulder : String := "right_shoulder"

def nameLeftElbow : String := "left_elbow"

def nameRightElbow : String := "right_elbow"

def nameLeftWrist : String := "left_wrist"

def nameRightWrist : String := "right_wrist"

/-- Source function `getPoint(pose, name)` (lines 69-71): the first keypoint whose name
matches and whose score strictly exceeds 0.4, `none` otherwise. -/
def getPoint (pose : Pose) (n : String) : Option Keypoint :=
  pose.keypoints.find? (fun kp => decide (kp.name = n ∧ kp.score > (0.4 : ℚ)))

def solidPushupMsg : String := "Solid pushup - keep elbows tracking toward your ribs."

def tooDeepMsg : String := "Don\x27t dive too deep - aim for about 90 deg at the elbows."

def notDeepEnoughMsg : String := "Lower more; get elbows to roughly 90 deg for full range."

def goodRangeMsg : String := "Nice elbow bend - controlled 90 deg range."

def stackWristsMsg : String := "Stack wrists under shoulders to avoid flaring the elbows."

def levelShouldersMsg : String := "Keep shoulders level; avoid twisting on the way up."

/-- Source function `interpretForm(averageElbowAngle, averageStack, shoulderTilt)`
(lines 84-110).  `r0` is the initial `(message, newScore)` pair; `r1` is the
pair after the elbow-angle if/else-if/else, `r2` after the wrist-stack rule,
`r3` after the shoulder-tilt rule (each later rule overwrites the message and
subtracts from the running score when it fires); the returned score is
`Math.max(60, Math.min(100, newScore))`. -/
noncomputable def interpretForm (averageElbowAngle averageStack shoulderTilt : ℝ) :
    String × ℝ :=
  let r0 : String × ℝ := (solidPushupMsg, 100)
  let r1 : String × ℝ :=
    if averageElbowAngle < 75 then (tooDeepMsg, r0.2 - 20)
    else if averageElbowAngle > 150 then (notDeepEnoughMsg, r0.2 - 15)
    else (goodRangeMsg, r0.2)
  let r2 : String × ℝ := if averageStack > 90 then (stackWristsMsg, r1.2 - 20) else r1
  let r3 : String × ℝ := if shoulderTilt > 40 then (levelShouldersMsg, r2.2 - 15) else r2
  (r3.1, max 60 (min 100 r3.2))

/-- The buffer `formStatsRef.current` (lines 17-22): the three accumulator sequences and
the timestamp of the last flush. -/
structure FormStats where
  angles : List ℝ
  «stacks» : List ℝ
  tilts : List ℝ
  lastFeedbackTime : ℤ

/-- The statistics-accumulation block of `processPose` (lines 195-212), given
the already-fetched shoulder keypoints `ls`, `rs`: if both elbows and both
wrists are also available, push the average elbow angle, the average
wrist-stack offset and the shoulder tilt onto their sequences; otherwise
leave the statistics untouched.  (The source guard re-tests the two shoulder
keypoints, which are non-null on this path.) -/
noncomputable def accumStats (pose : Pose) (ls rs : Keypoint) (fs : FormStats) :
    FormStats :=
  match getPoint pose nameLeftElbow, getPoint pose nameRightElbow,
      getPoint pose nameLeftWrist, getPoint pose nameRightWrist with
  | some le, some re, some lw, some rw =>
      { fs with
        angles := fs.angles ++
          [(calculateAngle ls.toPt le.toPt lw.toPt + calculateAngle rs.toPt re.toPt rw.toPt) / 2],
        «stacks» := fs.stacks ++ [(|(ls.x : ℝ) - (lw.x : ℝ)| + |(rs.x : ℝ) - (rw.x : ℝ)|) / 2],
        tilts := fs.tilts ++ [|(ls.y : ℝ) - (rs.y : ℝ)|] }
  | _, _, _, _ => fs

/-- The timed-flush block of `processPose` (lines 214-240): if at least
3000 ms elapsed since `lastFeedbackTime` and all three sequences are
non-empty, feed the three arithmetic means to `interpretForm`, publish its
`(message, score)` pair, clear the sequences and reset the timestamp to
`now`; otherwise change nothing and publish nothing. -/
noncomputable def flushCheck (now : ℤ) (fs : FormStats) :
    FormStats × Option (String × ℝ) :=
  if now - fs.lastFeedbackTime ≥ 3000 ∧ fs.angles.length > 0 ∧
      fs.stacks.length > 0 ∧ fs.tilts.length > 0 then
    (⟨[], [], [], now⟩,
      some (interpretForm (fs.angles.sum / fs.angles.length)
        (fs.stacks.sum / fs.stacks.length) (fs.tilts.sum / fs.tilts.length)))
  else
    (fs, none)

/-- The session state touched by `processPose`: the rep-phase state and the
form-statistics buffer. -/
structure Session where
  rep : RepState
  stats : FormStats

/-- Source function `processPose(pose)` (lines 162-241) at wall-clock time `now`, on a seeded
session: fetch the two shoulder keypoints and return the state unchanged
(publishing nothing) when either is unavailable; otherwise run the rep-phase
update on the mean shoulder-y, then the statistics accumulation, then the
flush check.  The second component is the `(message, score)` pair passed to
`setFeedback` / `setScore` when a flush fires. -/
noncomputable def processPose (pose : Pose) (now : ℤ) (s : Session) :
    Session × Option (String × ℝ) :=
  match getPoint pose nameLeftShoulder, getPoint pose nameRightShoulder with
  | some leftShoulder, some rightShoulder =>
      let shoulderY := (leftShoulder.y + rightShoulder.y) / 2
      let rep := repStep s.rep shoulderY
      let fs := accumStats pose leftShoulder rightShoulder s.stats
      let flushed := flushCheck now fs
      (⟨rep, flushed.1⟩, flushed.2)
  | _, _ => (s, none)

/-- A pose with no keypoints: every joint is unavailable. -/
def emptyPose : Pose :=
  ⟨[]⟩

/-- A concrete left-shoulder keypoint for the evaluation theorems below. -/
def kpLS : Keypoint :=
  ⟨nameLeftShoulder, 10, 20, 1⟩

/-- A concrete right-shoulder keypoint for the evaluation theorems below. -/
def kpRS : Keypoint :=
  ⟨nameRightShoulder, 30, 20, 1⟩

/-- A pose providing only the two shoulder keypoints. -/
def shoulderOnlyPose : Pose :=
  ⟨[kpLS, kpRS]⟩

/-- A concrete non-empty statistics buffer with `lastFeedbackTime = 0`. -/
def sampleStats : FormStats :=
  ⟨[100], [50], [10], 0⟩

/-- A concrete session holding `sampleStats`. -/
def sampleSession : Session :=
  ⟨initState 20, sampleStats⟩

/-- A concrete session with empty statistics buffers. -/
def emptySession : Session :=
  ⟨initState 0, ⟨[], [], [], 0⟩⟩

/-- The seeding frame is a no-op on the freshly seeded state. -/
theorem repStep_initState (y : ℚ) : repStep (initState y) y = initState y := by
  simp [repStep, initState, downThreshold]

/-- Unfolding of the phase update from the top phase. -/
theorem repStep_top (t b : ℚ) (c : ℕ) (y : ℚ) :
    repStep ⟨Phase.top, t, b, c⟩ y =
      if y - min t y > 52 then ⟨Phase.bottom, min t y, y, c⟩
      else ⟨Phase.top, min t y, b, c⟩ := rfl

/-- Unfolding of the phase update from the bottom phase. -/
theorem repStep_bottom (t b : ℚ) (c : ℕ) (y : ℚ) :
    repStep ⟨Phase.bottom, t, b, c⟩ y =
      if max b y - y > 40 ∧ max b y - t > 70 then ⟨Phase.top, y, max b y, c + 1⟩
      else ⟨Phase.bottom, t, max b y, c⟩ := rfl

/-- Processing a nondecreasing run while in the bottom phase only ratchets
`bottomY` up to the run's last value: each step sees `bottomY = y`, so the
up-travel test cannot fire. -/
theorem foldl_bottom_ascending (us : List ℚ) (p : ℚ) :
    ∀ (t b : ℚ) (c : ℕ), List.Chain' (· ≤ ·) (b :: (us ++ [p])) →
      (us ++ [p]).foldl repStep ⟨Phase.bottom, t, b, c⟩ = ⟨Phase.bottom, t, p, c⟩ := by
  induction us with
  | nil =>
      intro t b c hc
      simp only [List.nil_append, List.chain'_cons, List.chain'_singleton, and_true] at hc
      simp only [List.nil_append, List.foldl_cons, List.foldl_nil, repStep_bottom]
      rw [max_eq_right hc, if_neg]
      intro h
      have h1 := h.1
      linarith
  | cons x us ih =>
      intro t b c hc
      rw [List.cons_append, List.chain'_cons] at hc
      rw [List.cons_append, List.foldl_cons, repStep_bottom, max_eq_right hc.1, if_neg]
      · exact ih t x c hc.2
      · intro h
        have h1 := h.1
        linarith

/-- Processing a nonincreasing run while in the top phase only ratchets
`topY` down to the run's last value: each step sees `topY = y`, so the
down-travel test cannot fire. -/
theorem foldl_top_descending (ds : List ℚ) (q : ℚ) :
    ∀ (t b : ℚ) (c : ℕ), List.Chain' (· ≥ ·) (t :: (ds ++ [q])) →
      (ds ++ [q]).foldl repStep ⟨Phase.top, t, b, c⟩ = ⟨Phase.top, q, b, c⟩ := by
  induction ds with
  | nil =>
      intro t b c hc
      simp only [List.nil_append, List.chain'_cons, List.chain'_singleton, and_true] at hc
      simp only [List.nil_append, List.foldl_cons, List.foldl_nil, repStep_top]
      rw [min_eq_right hc, if_neg]
      intro h
      linarith
  | cons x ds ih =>
      intro t b c hc
      rw [List.cons_append, List.chain'_cons] at hc
      rw [List.cons_append, List.foldl_cons, repStep_top, min_eq_right hc.1, if_neg]
      · exact ih x b c hc.2
      · intro h
        linarith

/-- Climbing a nondecreasing run from the top phase with `topY` below every
value of the run: the machine drops to the bottom phase at the first value
exceeding `topY` by more than the down threshold (the run's last value is
such a value), and `bottomY` then ratchets up to that last value. -/
theorem foldl_top_ascending (us : List ℚ) (p : ℚ) :
    ∀ (t b : ℚ) (c : ℕ), List.Chain' (· ≤ ·) (us ++ [p]) →
      (∀ y ∈ us ++ [p], t ≤ y) → p - t > 52 →
      (us ++ [p]).foldl repStep ⟨Phase.top, t, b, c⟩ = ⟨Phase.bottom, t, p, c⟩ := by
  induction us with
  | nil =>
      intro t b c _ hmem h52
      have htp : t ≤ p := hmem p (by simp)
      simp only [List.nil_append, List.foldl_cons, List.foldl_nil, repStep_top]
      rw [min_eq_left htp, if_pos h52]
  | cons x us ih =>
      intro t b c hc hmem h52
      have htx : t ≤ x := hmem x (by simp)
      rw [List.cons_append] at hc
      rw [List.cons_append, List.foldl_cons, repStep_top, min_eq_left htx]
      by_cases hx : x - t > 52
      · rw [if_pos hx]
        exact foldl_bottom_ascending us p t x c hc
      · rw [if_neg hx]
        exact ih t b c (List.chain'_cons'.mp hc).2
          (fun y hy => hmem y (List.mem_cons_of_mem _ hy)) h52

/-- Descending a nonincreasing run from the bottom phase with the peak `p`
recorded and a recorded range above the minimum: the first value more than
the up threshold below the peak fires the counting transition, and the
machine then stays in the top phase for the rest of the descent; exactly one
rep is counted. -/
theorem foldl_bottom_descending (ds : List ℚ) (q : ℚ) :
    ∀ (t p : ℚ) (c : ℕ), List.Chain' (· ≥ ·) (p :: (ds ++ [q])) →
      p - q > 40 → p - t > 70 →
      ((ds ++ [q]).foldl repStep ⟨Phase.bottom, t, p, c⟩).repCount = c + 1 ∧
      ((ds ++ [q]).foldl repStep ⟨Phase.bottom, t, p, c⟩).phase = Phase.top := by
  induction ds with
  | nil =>
      intro t p c hc h40 h70
      simp only [List.nil_append, List.chain'_cons, List.chain'_singleton, and_true] at hc
      simp only [List.nil_append, List.foldl_cons, List.foldl_nil, repStep_bottom]
      rw [max_eq_left hc, if_pos ⟨h40, h70⟩]
      exact ⟨rfl, rfl⟩
  | cons x ds ih =>
      intro t p c hc h40 h70
      rw [List.cons_append, List.chain'_cons] at hc
      rw [List.cons_append, List.foldl_cons, repStep_bottom, max_eq_left hc.1]
      by_cases hx : p - x > 40
      · rw [if_pos ⟨hx, h70⟩, foldl_top_descending ds q x p (c + 1) hc.2]
        exact ⟨rfl, rfl⟩
      · rw [if_neg (fun h => hx h.1)]
        have hchain : List.Chain' (· ≥ ·) (p :: (ds ++ [q])) := by
          rw [List.chain'_cons']
          obtain ⟨hhead, htail⟩ := List.chain'_cons'.mp hc.2
          exact ⟨fun z hz => le_trans (hhead z hz) hc.1, htail⟩
        exact ih t p c hchain h40 h70

/-- C1 (amended): starting from the seeded state, a shoulder-y sequence that
climbs monotonically from `y₀` to a peak `p` with `p - y₀ > 52` and descends
monotonically from `p` to `dLast` with `p - dLast > 40`, the climb totalling
more than `minimumRange` (`p - y₀ > 70`), yields exactly one increment of
`repCount` and leaves the machine in phase "top".  (The claim's excursion
measure `max y - min y > 70` is corrected to `p - y₀ > 70`: the counting
transition compares `bottomY - topY`, whose value here is `p - y₀`; see
`rep_machine_excursion_claim_cex`.) -/
theorem rep_machine_single_rep (y₀ p dLast : ℚ) (us ds : List ℚ)
    (hup : List.Chain' (· ≤ ·) (y₀ :: (us ++ [p])))
    (hdown : List.Chain' (· ≥ ·) (p :: (ds ++ [dLast])))
    (h52 : p - y₀ > 52) (h70 : p - y₀ > 70) (h40 : p - dLast > 40) :
    (runReps y₀ ((us ++ [p]) ++ (ds ++ [dLast]))).repCount = 1 ∧
    (runReps y₀ ((us ++ [p]) ++ (ds ++ [dLast]))).phase = Phase.top := by
  have hmem : ∀ y ∈ us ++ [p], y₀ ≤ y := by
    rw [List.chain'_iff_pairwise] at hup
    exact (List.pairwise_cons.mp hup).1
  have hchain_up : List.Chain' (· ≤ ·) (us ++ [p]) := (List.chain'_cons'.mp hup).2
  show (((y₀ :: (us ++ [p])) ++ (ds ++ [dLast])).foldl repStep (initState y₀)).repCount = 1 ∧
    (((y₀ :: (us ++ [p])) ++ (ds ++ [dLast])).foldl repStep (initState y₀)).phase = Phase.top
  rw [List.foldl_append, List.foldl_cons, repStep_initState,
    show initState y₀ = ⟨Phase.top, y₀, y₀, 0⟩ from rfl,
    foldl_top_ascending us p y₀ y₀ 0 hchain_up hmem h52]
  exact foldl_bottom_descending ds dLast y₀ p 0 hdown h40 h70

/-- C1, concrete instance of the amended statement: climb 0 → 80, descend
80 → 30; one rep, phase "top". -/
theorem rep_machine_single_rep_witness :
    (runReps 0 (([] ++ [80]) ++ ([] ++ [30]))).repCount = 1 ∧
    (runReps 0 (([] ++ [80]) ++ ([] ++ [30]))).phase = Phase.top :=
  rep_machine_single_rep 0 80 30 [] []
    (by norm_num [List.chain'_cons]) (by norm_num [List.chain'_cons])
    (by norm_num) (by norm_num) (by norm_num)

/-- C1, counterexample to the claim as stated: the sequence 0, 53, −20 climbs
monotonically by 53 > 52, descends monotonically by 73 > 40, and its total
excursion measured as max y − min y is 73 > 70, yet the machine counts no rep
and ends in phase "bottom" (the counting transition compares
`bottomY − topY = 53 − 0 ≤ 70`, not max − min). -/
theorem rep_machine_excursion_claim_cex :
    List.Chain' (· ≤ ·) [(0 : ℚ), 53] ∧ (53 : ℚ) - 0 > 52 ∧
    List.Chain' (· ≥ ·) [(53 : ℚ), -20] ∧ (53 : ℚ) - (-20) > 40 ∧
    max (max (0 : ℚ) 53) (-20) - min (min (0 : ℚ) 53) (-20) > 70 ∧
    ¬((runReps 0 [53, -20]).repCount = 1 ∧ (runReps 0 [53, -20]).phase = Phase.top) := by
  refine ⟨by norm_num [List.chain'_cons], by norm_num, by norm_num [List.chain'_cons],
    by norm_num, by norm_num [max_def, min_def], ?_⟩
  norm_num [runReps, initState, repStep, downThreshold, upThreshold, minimumRange,
    min_def, max_def]

/-- Bounded-input invariant: if every processed value lies in `[lo, hi]` with
`hi - lo ≤ 70`, then `topY` stays at or above `lo`, `bottomY` stays at or
below `hi`, and `repCount` never changes — the counting transition would need
`bottomY - topY > 70 ≥ hi - lo`. -/
theorem no_rep_bounded (lo hi : ℚ) (h70 : hi - lo ≤ 70) :
    ∀ (l : List ℚ) (s : RepState), (∀ y ∈ l, lo ≤ y ∧ y ≤ hi) →
      lo ≤ s.topY → s.bottomY ≤ hi →
      (l.foldl repStep s).repCount = s.repCount ∧
      lo ≤ (l.foldl repStep s).topY ∧ (l.foldl repStep s).bottomY ≤ hi := by
  intro l
  induction l with
  | nil => intro s _ h1 h2; exact ⟨rfl, h1, h2⟩
  | cons y l ih =>
      intro s hmem htop hbot
      have hy := hmem y (List.mem_cons_self _ _)
      have hrest : ∀ z ∈ l, lo ≤ z ∧ z ≤ hi :=
        fun z hz => hmem z (List.mem_cons_of_mem _ hz)
      rw [List.foldl_cons]
      rcases s with ⟨ph, t, b, c⟩
      cases ph
      · rw [repStep_top]
        split_ifs with h
        · exact ih _ hrest (le_min htop hy.1) hy.2
        · exact ih _ hrest (le_min htop hy.1) hbot
      · rw [repStep_bottom]
        split_ifs with h
        · exfalso
          have hmax : max b y ≤ hi := max_le hbot hy.2
          have h2 := h.2
          linarith
        · exact ih _ hrest htop (max_le hbot hy.2)

/-- C4: a shoulder-y sequence whose values all lie in a band of width at most
70 (total excursion `hi - lo ≤ 70`) never increments `repCount`: along every
prefix of the sequence, from the seeded initial state, the count stays 0 —
no step ever takes the counting bottom-to-top transition. -/
theorem no_rep_small_excursion (y₀ lo hi : ℚ) (ys pre : List ℚ)
    (hpre : pre <+: ys)
    (hbound : ∀ y ∈ y₀ :: ys, lo ≤ y ∧ y ≤ hi)
    (h70 : hi - lo ≤ 70) :
    (runReps y₀ pre).repCount = 0 := by
  have hb : ∀ y ∈ y₀ :: pre, lo ≤ y ∧ y ≤ hi := by
    intro y hy
    rcases List.mem_cons.mp hy with rfl | hy
    · exact hbound y (List.mem_cons_self _ _)
    · exact hbound y (List.mem_cons_of_mem _ (hpre.subset hy))
  have h0 := hbound y₀ (List.mem_cons_self _ _)
  have hmain := no_rep_bounded lo hi h70 (y₀ :: pre) (initState y₀) hb h0.1 h0.2
  exact hmain.1

/-- C4, concrete instance: an oscillation of excursion exactly 70 (0, 70, 0,
70, 0) counts no rep. -/
theorem no_rep_small_excursion_witness :
    (runReps 0 [70, 0, 70, 0]).repCount = 0 :=
  no_rep_small_excursion 0 0 70 [70, 0, 70, 0] [70, 0, 70, 0]
    ⟨[], List.append_nil _⟩ (by norm_num) (by norm_num)

/-- One-step preservation of the bottom-phase gap invariant. -/
theorem bottom_gap_step (s : RepState) (y : ℚ)
    (h : s.phase = Phase.bottom → s.bottomY - s.topY > 52) :
    (repStep s y).phase = Phase.bottom →
      (repStep s y).bottomY - (repStep s y).topY > 52 := by
  rcases s with ⟨ph, t, b, c⟩
  cases ph
  · rw [repStep_top]
    split_ifs with hcond
    · intro _
      simpa using hcond
    · intro hph
      exact absurd hph (by simp)
  · rw [repStep_bottom]
    split_ifs with hcond
    · intro hph
      exact absurd hph (by simp)
    · intro _
      have hb : b - t > 52 := h rfl
      have hle : b ≤ max b y := le_max_left _ _
      simp only
      linarith

/-- C10: in every state reachable from the seeded initial state, whenever the
phase is "bottom" the recorded extremes satisfy
`bottomY - topY > 52` (the down threshold): entering the bottom phase
establishes the gap, and bottom-phase steps only grow `bottomY` while leaving
`topY` untouched. -/
theorem bottom_phase_gap (y₀ : ℚ) (ys : List ℚ)
    (h : (runReps y₀ ys).phase = Phase.bottom) :
    (runReps y₀ ys).bottomY - (runReps y₀ ys).topY > 52 := by
  suffices hfold : ∀ (l : List ℚ) (s : RepState),
      (s.phase = Phase.bottom → s.bottomY - s.topY > 52) →
      ((l.foldl repStep s).phase = Phase.bottom →
        (l.foldl repStep s).bottomY - (l.foldl repStep s).topY > 52) by
    exact hfold (y₀ :: ys) (initState y₀) (by intro hph; exact absurd hph (by simp [initState])) h
  intro l
  induction l with
  | nil => intro s hs; exact hs
  | cons y l ih =>
      intro s hs
      rw [List.foldl_cons]
      exact ih (repStep s y) (bottom_gap_step s y hs)

/-- C10, concrete instance: after 0 then 60 the machine is in phase "bottom"
with gap 60 > 52. -/
theorem bottom_phase_gap_witness :
    (runReps 0 [60]).bottomY - (runReps 0 [60]).topY > 52 :=
  bottom_phase_gap 0 [60]
    (by norm_num [runReps, initState, repStep, downThreshold, upThreshold,
      minimumRange, min_def, max_def])

/-- C2: the four test vectors of the form interpreter.  `interpretForm(80,
50, 10)` gives the "good range" baseline with score 100; `interpretForm(60,
50, 10)` the "too deep" message with 80; `interpretForm(80, 100, 10)` the
"stack wrists" message with 80; `interpretForm(160, 100, 50)` fires rules 2,
4 and 5 (raw 100 − 15 − 20 − 15 = 50, clamped to 60) and the tilt message of
rule 5, assigned last, wins over rules 4 and 2. -/
theorem interpretForm_vectors :
    interpretForm 80 50 10 = (goodRangeMsg, 100) ∧
    interpretForm 60 50 10 = (tooDeepMsg, 80) ∧
    interpretForm 80 100 10 = (stackWristsMsg, 80) ∧
    interpretForm 160 100 50 = (levelShouldersMsg, 60) := by
  refine ⟨?_, ?_, ?_, ?_⟩ <;> norm_num [interpretForm, min_def, max_def]

/-- C3: for every triple of real inputs, the score component of
`interpretForm` is an integer lying in `[60, 100]`. -/
theorem interpretForm_score_int_bounds (a w t : ℝ) :
    ∃ n : ℤ, (interpretForm a w t).2 = (n : ℝ) ∧ 60 ≤ n ∧ n ≤ 100 := by
  refine ⟨max 60 (min 100 ((if a < 75 then (80 : ℤ) else if a > 150 then 85 else 100) -
      (if w > 90 then 20 else 0) - (if t > 40 then 15 else 0))), ?_,
    le_max_left _ _, max_le (by norm_num) (min_le_left _ _)⟩
  simp only [interpretForm]
  split_ifs <;> norm_num [min_def, max_def]

/-- The degree-valued inverse cosine lands in `[0, 180]`. -/
theorem arccos_deg_range (x : ℝ) :
    0 ≤ Real.arccos x * 180 / Real.pi ∧ Real.arccos x * 180 / Real.pi ≤ 180 := by
  constructor
  · exact div_nonneg (mul_nonneg (Real.arccos_nonneg _) (by norm_num)) Real.pi_pos.le
  · rw [div_le_iff₀ Real.pi_pos]
    have h := Real.arccos_le_pi x
    linarith

/-- C5: for every three points, `calculateAngle` returns a value in
`[0, 180]` degrees, and returns exactly 180 whenever `a = b` or `c = b`
(a zero-length vector at the vertex). -/
theorem calculateAngle_range_degenerate (a b c : Pt) :
    (0 ≤ calculateAngle a b c ∧ calculateAngle a b c ≤ 180) ∧
    ((a = b ∨ c = b) → calculateAngle a b c = 180) := by
  constructor
  · unfold calculateAngle
    split_ifs with h
    · norm_num
    · exact arccos_deg_range _
  · intro h
    have hc : Real.sqrt ((a.x - b.x) ^ 2 + (a.y - b.y) ^ 2) = 0 ∨
        Real.sqrt ((c.x - b.x) ^ 2 + (c.y - b.y) ^ 2) = 0 := by
      rcases h with rfl | rfl
      · left; simp
      · right; simp
    unfold calculateAngle
    rw [if_pos hc]

/-- C5, concrete instance: a degenerate triple (`a = b`) evaluates to 180. -/
theorem calculateAngle_range_degenerate_witness :
    calculateAngle ⟨0, 0⟩ ⟨0, 0⟩ ⟨1, 0⟩ = 180 :=
  (calculateAngle_range_degenerate ⟨0, 0⟩ ⟨0, 0⟩ ⟨1, 0⟩).2 (Or.inl rfl)

/-- C6: `calculateAngle` is symmetric under swapping its outer arguments:
the dot product, the pair of magnitudes and the degeneracy test are all
symmetric in `a` and `c`. -/
theorem calculateAngle_symm (a b c : Pt) :
    calculateAngle a b c = calculateAngle c b a := by
  unfold calculateAngle
  rw [show (c.x - b.x) * (a.x - b.x) + (c.y - b.y) * (a.y - b.y)
      = (a.x - b.x) * (c.x - b.x) + (a.y - b.y) * (c.y - b.y) from by ring,
    mul_comm (Real.sqrt ((c.x - b.x) ^ 2 + (c.y - b.y) ^ 2))
      (Real.sqrt ((a.x - b.x) ^ 2 + (a.y - b.y) ^ 2))]
  exact if_congr or_comm rfl rfl

/-- Case split for the accumulation block: it either appends exactly one
entry to each of the three sequences (leaving the timestamp alone) or leaves
the buffer entirely unchanged. -/
theorem accumStats_cases (pose : Pose) (ls rs : Keypoint) (fs : FormStats) :
    (∃ x y z, accumStats pose ls rs fs =
      ⟨fs.angles ++ [x], fs.stacks ++ [y], fs.tilts ++ [z], fs.lastFeedbackTime⟩) ∨
    accumStats pose ls rs fs = fs := by
  unfold accumStats
  cases getPoint pose nameLeftElbow
  · right; rfl
  · cases getPoint pose nameRightElbow
    · right; rfl
    · cases getPoint pose nameLeftWrist
      · right; rfl
      · cases getPoint pose nameRightWrist
        · right; rfl
        · left; exact ⟨_, _, _, rfl⟩

/-- C7: per frame the three accumulator sequences move together.  When both
elbows and both wrists are available (the shoulders already are on this code
path), each sequence receives exactly one new entry — the computed average
elbow angle, average wrist-stack offset and shoulder tilt; when any of the
four is unavailable, all three sequences are left unchanged; and a full
`processPose` frame preserves equality of the three lengths. -/
theorem accum_all_or_nothing (pose : Pose) (ls rs : Keypoint) (fs : FormStats) :
    (∀ le re lw rw,
      getPoint pose nameLeftElbow = some le → getPoint pose nameRightElbow = some re →
      getPoint pose nameLeftWrist = some lw → getPoint pose nameRightWrist = some rw →
      accumStats pose ls rs fs =
        ⟨fs.angles ++
            [(calculateAngle ls.toPt le.toPt lw.toPt + calculateAngle rs.toPt re.toPt rw.toPt) / 2],
          fs.stacks ++ [(|(ls.x : ℝ) - (lw.x : ℝ)| + |(rs.x : ℝ) - (rw.x : ℝ)|) / 2],
          fs.tilts ++ [|(ls.y : ℝ) - (rs.y : ℝ)|], fs.lastFeedbackTime⟩) ∧
    ((getPoint pose nameLeftElbow = none ∨ getPoint pose nameRightElbow = none ∨
      getPoint pose nameLeftWrist = none ∨ getPoint pose nameRightWrist = none) →
      accumStats pose ls rs fs = fs) ∧
    (∀ (now : ℤ) (s : Session),
      s.stats.angles.length = s.stats.stacks.length ∧
        s.stats.stacks.length = s.stats.tilts.length →
      (processPose pose now s).1.stats.angles.length =
          (processPose pose now s).1.stats.stacks.length ∧
        (processPose pose now s).1.stats.stacks.length =
          (processPose pose now s).1.stats.tilts.length) := by
  refine ⟨?_, ?_, ?_⟩
  · intro le re lw rw hle hre hlw hrw
    unfold accumStats
    rw [hle, hre, hlw, hrw]
  · intro h
    unfold accumStats
    cases hle : getPoint pose nameLeftElbow
    · rfl
    · cases hre : getPoint pose nameRightElbow
      · rfl
      · cases hlw : getPoint pose nameLeftWrist
        · rfl
        · cases hrw : getPoint pose nameRightWrist
          · rfl
          · rcases h with h | h | h | h <;> simp_all
  · intro now s hlen
    unfold processPose
    cases hls : getPoint pose nameLeftShoulder
    · exact hlen
    · cases hrs : getPoint pose nameRightShoulder
      · exact hlen
      · simp only
        unfold flushCheck
        split_ifs with hc
        · exact ⟨rfl, rfl⟩
        · rcases accumStats_cases pose _ _ s.stats with ⟨x, y, z, hacc⟩ | hacc <;>
            rw [hacc] <;> simp [hlen.1, hlen.2]

/-- C7, concrete instance: a frame with shoulders but no elbows or wrists
leaves the buffer unchanged, and the full frame preserves length equality. -/
theorem accum_all_or_nothing_witness :
    accumStats shoulderOnlyPose kpLS kpRS sampleStats = sampleStats ∧
    (processPose shoulderOnlyPose 0 sampleSession).1.stats.angles.length =
      (processPose shoulderOnlyPose 0 sampleSession).1.stats.stacks.length := by
  have h := accum_all_or_nothing shoulderOnlyPose kpLS kpRS sampleStats
  exact ⟨h.2.1 (Or.inl rfl), (h.2.2 0 sampleSession ⟨rfl, rfl⟩).1⟩

/-- C8: the flush fires on a frame exactly when at least 3000 ms have
elapsed since `lastFeedbackTime` and all three (post-accumulation) sequences
are non-empty; on a flush the three arithmetic means are handed to
`interpretForm`, its result is published, the sequences are cleared and the
timestamp is reset to `now`; otherwise buffer and timestamp pass through the
check unchanged and nothing is published.  The third part places the check
inside `processPose`: on a frame with both shoulders available, the flush
check runs on the freshly accumulated buffer. -/
theorem flush_iff (now : ℤ) (fs : FormStats) :
    ((now - fs.lastFeedbackTime ≥ 3000 ∧ fs.angles.length > 0 ∧
        fs.stacks.length > 0 ∧ fs.tilts.length > 0) →
      flushCheck now fs =
        (⟨[], [], [], now⟩,
          some (interpretForm (fs.angles.sum / fs.angles.length)
            (fs.stacks.sum / fs.stacks.length) (fs.tilts.sum / fs.tilts.length)))) ∧
    (¬(now - fs.lastFeedbackTime ≥ 3000 ∧ fs.angles.length > 0 ∧
        fs.stacks.length > 0 ∧ fs.tilts.length > 0) →
      flushCheck now fs = (fs, none)) ∧
    (∀ (pose : Pose) (s : Session) (ls rs : Keypoint),
      getPoint pose nameLeftShoulder = some ls →
      getPoint pose nameRightShoulder = some rs →
      processPose pose now s =
        ((⟨repStep s.rep ((ls.y + rs.y) / 2),
            (flushCheck now (accumStats pose ls rs s.stats)).1⟩ : Session),
          (flushCheck now (accumStats pose ls rs s.stats)).2)) := by
  refine ⟨?_, ?_, ?_⟩
  · intro h
    unfold flushCheck
    rw [if_pos h]
  · intro h
    unfold flushCheck
    rw [if_neg h]
  · intro pose s ls rs hls hrs
    unfold processPose
    rw [hls, hrs]

/-- C8, concrete instance: with a 1-entry buffer stamped 0, the check at
`now = 3000` flushes — clears the buffer, resets the stamp and publishes the
interpreted means. -/
theorem flush_iff_witness :
    flushCheck 3000 sampleStats =
      (⟨[], [], [], 3000⟩,
        some (interpretForm (sampleStats.angles.sum / sampleStats.angles.length)
          (sampleStats.stacks.sum / sampleStats.stacks.length)
          (sampleStats.tilts.sum / sampleStats.tilts.length))) :=
  (flush_iff 3000 sampleStats).1 (by norm_num [sampleStats])

/-- C9: a frame in which either shoulder keypoint is unavailable (absent or
with confidence not above 0.4) leaves the whole session unchanged — no
rep-state field is touched, no entry is appended, no flush runs, nothing is
published. -/
theorem skip_missing_shoulder (pose : Pose) (now : ℤ) (s : Session)
    (h : getPoint pose nameLeftShoulder = none ∨
      getPoint pose nameRightShoulder = none) :
    processPose pose now s = (s, none) := by
  unfold processPose
  rcases h with h | h
  · rw [h]
  · rw [h]
    cases hls : getPoint pose nameLeftShoulder <;> rfl

/-- C9, concrete instance: a frame with no keypoints at all is a no-op. -/
theorem skip_missing_shoulder_witness :
    processPose emptyPose 0 emptySession = (emptySession, none) :=
  skip_missing_shoulder emptyPose 0 emptySession (Or.inl rfl)

end PoseCamera
